import Mathlib

/-
Verification of the NinevehGL light data holder (src/Source/effects/NGLLight.h).

The repository ships only the header: the enum NGLLightType, the struct
NGLLightValues, the NGLLight interface (properties type / color / attenuation,
the read-only values pointer, and the class method defaultLight) are declared
there, while the implementation file NGLLight.m is absent.  The data model
below is embedded from the header; the behaviour of the property accessors and
of defaultLight is modelled from the spec, as marked on each definition.

Scalars are modelled as rationals.  No operation of this component performs
any arithmetic on its scalars — every setter is an unconditional store and
every getter an unconditional load — so the store/load properties proved here
are independent of the concrete scalar representation.
-/

/-- Scalar type standing for the C float.  The component stores and loads
scalars verbatim and never computes with them, so rationals (which contain
all the concrete values the spec mentions, such as -5.0, 1.0, 5000.0) are a
faithful carrier. -/
def NGLfloat : Type := ℚ

instance : DecidableEq NGLfloat := inferInstanceAs (DecidableEq ℚ)

instance : OfNat NGLfloat n := inferInstanceAs (OfNat ℚ n)

instance : Neg NGLfloat := inferInstanceAs (Neg ℚ)

instance : OfScientific NGLfloat := inferInstanceAs (OfScientific ℚ)

/-- Four-component homogeneous vector, as the NGLvec4 struct used for the
position and color fields of NGLLightValues. -/
structure NGLvec4 where
  x : NGLfloat
  y : NGLfloat
  z : NGLfloat
  w : NGLfloat
deriving DecidableEq

/-- Light type enumeration from NGLLight.h lines 51-56: the enumerators are
declared in the order Point, Spot, Sky with no explicit values, so the C
underlying values are 0, 1, 2. -/
inductive NGLLightType where
  | NGLLightTypePoint : NGLLightType
  | NGLLightTypeSpot : NGLLightType
  | NGLLightTypeSky : NGLLightType
deriving DecidableEq

/-- Underlying C integer value of each enumerator: with no explicit
initializers the C enumerators take 0, 1, 2 in declaration order. -/
def NGLLightType.rawValue : NGLLightType → Nat
  | .NGLLightTypePoint => 0
  | .NGLLightTypeSpot => 1
  | .NGLLightTypeSky => 2

/-- Enumerator denoted by a C underlying value, for reasoning about
zero-initialized storage; values past the last enumerator are clipped. -/
def NGLLightType.ofRaw : Nat → NGLLightType
  | 0 => .NGLLightTypePoint
  | 1 => .NGLLightTypeSpot
  | _ => .NGLLightTypeSky

/-- The NGLLightValues struct from NGLLight.h lines 79-85: light type, world
position, color and attenuation factor. -/
structure NGLLightValues where
  type : NGLLightType
  position : NGLvec4
  color : NGLvec4
  attenuation : NGLfloat
deriving DecidableEq

/-- Zero-initialized NGLLightValues record: every field is all-zero bits, so
the type field holds the enumerator of underlying value 0. -/
def zeroLightValues : NGLLightValues :=
  { type := NGLLightType.ofRaw 0
    position := ⟨0, 0, 0, 0⟩
    color := ⟨0, 0, 0, 0⟩
    attenuation := 0 }

/-- Modelled from the spec: the setter of the type property (NGLLight.m is
absent).  An unconditional assignment into the private _values record; no
validation, no other side effect. -/
def setType (k : NGLLightType) (v : NGLLightValues) : NGLLightValues :=
  { v with type := k }

/-- Modelled from the spec: the getter of the type property (NGLLight.m is
absent).  Returns the current kind. -/
def getType (v : NGLLightValues) : NGLLightType :=
  v.type

/-- Modelled from the spec: the setter of the color property (NGLLight.m is
absent).  Stores the vector verbatim; no clamping. -/
def setColor (c : NGLvec4) (v : NGLLightValues) : NGLLightValues :=
  { v with color := c }

/-- Modelled from the spec: the getter of the color property (NGLLight.m is
absent). -/
def getColor (v : NGLLightValues) : NGLvec4 :=
  v.color

/-- Modelled from the spec: the setter of the attenuation property
(NGLLight.m is absent).  Stores the scalar verbatim; out-of-range values are
neither rejected nor clamped. -/
def setAttenuation (a : NGLfloat) (v : NGLLightValues) : NGLLightValues :=
  { v with attenuation := a }

/-- Modelled from the spec: the getter of the attenuation property
(NGLLight.m is absent). -/
def getAttenuation (v : NGLLightValues) : NGLfloat :=
  v.attenuation

/-- Modelled from the spec: the values accessor (NGLLight.m is absent).  The
accessor exposes the internal record itself; at the value level it is the
identity on the record. -/
def getValues (v : NGLLightValues) : NGLLightValues :=
  v

/-- Modelled from the spec: initial field values of a freshly constructed
NGLLight (NGLLight.m is absent).  Default color is opaque white and default
attenuation is 1.0 per the header documentation; the inherited position
starts at the origin and the type at its zero enumerator. -/
def initLightValues : NGLLightValues :=
  { type := .NGLLightTypePoint
    position := ⟨0, 0, 0, 0⟩
    color := ⟨1, 1, 1, 1⟩
    attenuation := 1 }

/-- Modelled from the spec: the record held by the default light right after
its construction (NGLLight.m is absent).  Kind Sky, position {0.0, 1.0, -1.0}
in world coordinates with homogeneous w = 1 (the point convention adopted by
this model), default color and attenuation. -/
def defaultLightValues : NGLLightValues :=
  { type := .NGLLightTypeSky
    position := ⟨0, 1, -1, 1⟩
    color := ⟨1, 1, 1, 1⟩
    attenuation := 1 }

/-- Process state for the object-identity claims: a heap of live light
records addressed by allocation order, and the cached address of the default
light singleton (none before the first defaultLight call). -/
structure ProcState where
  heap : List NGLLightValues
  defaultRef : Option Nat
deriving DecidableEq

/-- The process state at program start: no lights allocated, singleton not
yet constructed. -/
def initialState : ProcState :=
  { heap := [], defaultRef := none }

/-- Well-formedness of a process state: the cached singleton address, when
present, points into the heap. -/
def ProcState.WF (s : ProcState) : Prop :=
  match s.defaultRef with
  | none => True
  | some r => r < s.heap.length

instance (s : ProcState) : Decidable s.WF := by
  unfold ProcState.WF
  cases s.defaultRef <;> infer_instance

/-- Modelled from the spec: explicit construction of a LightSource by a
caller (NGLLight.m is absent).  Allocates a fresh record with the initial
field values and returns its address. -/
def allocLight (s : ProcState) : ProcState × Nat :=
  ({ s with heap := s.heap ++ [initLightValues] }, s.heap.length)

/-- Modelled from the spec: the defaultLight class method (NGLLight.m is
absent).  On first call it constructs the default light and caches its
address; on every later call it returns the cached address unchanged. -/
def defaultLight (s : ProcState) : ProcState × Nat :=
  match s.defaultRef with
  | some r => (s, r)
  | none =>
      ({ heap := s.heap ++ [defaultLightValues], defaultRef := some s.heap.length },
       s.heap.length)

/-- Dereference a light address: the record currently stored there, or none
for a dangling address. -/
def lookupLight (s : ProcState) (r : Nat) : Option NGLLightValues :=
  s.heap[r]?

/-- Replacement of the record at one heap address, leaving every other
address untouched. -/
def updateAt (f : NGLLightValues → NGLLightValues) :
    Nat → List NGLLightValues → List NGLLightValues
  | _, [] => []
  | 0, v :: t => f v :: t
  | n + 1, v :: t => v :: updateAt f n t

/-- Apply a record-level mutation to the light stored at address r. -/
def updateLight (s : ProcState) (r : Nat)
    (f : NGLLightValues → NGLLightValues) : ProcState :=
  { s with heap := updateAt f r s.heap }

/-- Heap-level type setter on the light at address r. -/
def setTypeRef (s : ProcState) (r : Nat) (k : NGLLightType) : ProcState :=
  updateLight s r (setType k)

/-- Heap-level color setter on the light at address r. -/
def setColorRef (s : ProcState) (r : Nat) (c : NGLvec4) : ProcState :=
  updateLight s r (setColor c)

/-- Heap-level attenuation setter on the light at address r. -/
def setAttenuationRef (s : ProcState) (r : Nat) (a : NGLfloat) : ProcState :=
  updateLight s r (setAttenuation a)

/-- Heap-level type getter on the light at address r. -/
def getTypeRef (s : ProcState) (r : Nat) : Option NGLLightType :=
  (lookupLight s r).map getType

/-- Heap-level color getter on the light at address r. -/
def getColorRef (s : ProcState) (r : Nat) : Option NGLvec4 :=
  (lookupLight s r).map getColor

/-- Heap-level attenuation getter on the light at address r. -/
def getAttenuationRef (s : ProcState) (r : Nat) : Option NGLfloat :=
  (lookupLight s r).map getAttenuation

/-- Heap-level values accessor: the values property returns a pointer to the
private _values record, so reading through it yields the record stored at the
light's address. -/
def getValuesRef (s : ProcState) (r : Nat) : Option NGLLightValues :=
  (lookupLight s r).map getValues

/-- A write performed through the pointer returned by the values accessor:
the pointer aliases the record at the light's address, so the write replaces
that record in place. -/
def writeValuesRef (s : ProcState) (r : Nat) (nv : NGLLightValues) : ProcState :=
  updateLight s r (fun _ => nv)

/-- One public setter call, for reasoning about arbitrary call sequences. -/
inductive LightOp where
  | opType (k : NGLLightType) : LightOp
  | opColor (c : NGLvec4) : LightOp
  | opAttenuation (a : NGLfloat) : LightOp
deriving DecidableEq

/-- Effect of one setter call on the record. -/
def applyOp (op : LightOp) (v : NGLLightValues) : NGLLightValues :=
  match op with
  | .opType k => setType k v
  | .opColor c => setColor c v
  | .opAttenuation a => setAttenuation a v

/-- Effect of a finite sequence of setter calls, applied left to right. -/
def applyOps (ops : List LightOp) (v : NGLLightValues) : NGLLightValues :=
  ops.foldl (fun acc op => applyOp op acc) v

/-- Heap-level form of one setter call on the light at address r. -/
def applyOpRef (s : ProcState) (r : Nat) (op : LightOp) : ProcState :=
  updateLight s r (applyOp op)

/-- The kind stored by the last type-setting call of a sequence, if any. -/
def lastTypeSet : List LightOp → Option NGLLightType
  | [] => none
  | op :: t =>
      match lastTypeSet t with
      | some k => some k
      | none => match op with | .opType k => some k | _ => none

/-- The color stored by the last color-setting call of a sequence, if any. -/
def lastColorSet : List LightOp → Option NGLvec4
  | [] => none
  | op :: t =>
      match lastColorSet t with
      | some c => some c
      | none => match op with | .opColor c => some c | _ => none

/-- The scalar stored by the last attenuation-setting call of a sequence, if
any. -/
def lastAttenuationSet : List LightOp → Option NGLfloat
  | [] => none
  | op :: t =>
      match lastAttenuationSet t with
      | some a => some a
      | none => match op with | .opAttenuation a => some a | _ => none

/-- Looking up a freshly appended record at the old length finds it. -/
theorem getElem?_append_length (l : List NGLLightValues) (v : NGLLightValues) :
    (l ++ [v])[l.length]? = some v := by
  induction l with
  | nil => rfl
  | cons a t ih => simp [ih]

/-- Lookup at the updated address sees the mutation. -/
theorem getElem?_updateAt (f : NGLLightValues → NGLLightValues)
    (l : List NGLLightValues) (r : Nat) :
    (updateAt f r l)[r]? = (l[r]?).map f := by
  induction l generalizing r with
  | nil => simp [updateAt]
  | cons a t ih =>
    cases r with
    | zero => simp [updateAt]
    | succ n => simpa [updateAt] using ih n

/-- Lookup at any other address is untouched by an update. -/
theorem getElem?_updateAt_ne (f : NGLLightValues → NGLLightValues)
    (l : List NGLLightValues) (r r' : Nat) (h : r ≠ r') :
    (updateAt f r l)[r']? = l[r']? := by
  induction l generalizing r r' with
  | nil => simp [updateAt]
  | cons a t ih =>
    cases r with
    | zero =>
      cases r' with
      | zero => exact absurd rfl h
      | succ m => simp [updateAt]
    | succ n =>
      cases r' with
      | zero => simp [updateAt]
      | succ m => simpa [updateAt] using ih n m (by omega)

/-- Setting the color of a live light and reading it back yields the color. -/
theorem getColorRef_setColorRef (s : ProcState) (r : Nat)
    (h : r < s.heap.length) (c : NGLvec4) :
    getColorRef (setColorRef s r c) r = some c := by
  simp [getColorRef, setColorRef, updateLight, lookupLight, getElem?_updateAt,
    List.getElem?_eq_getElem h, getColor, setColor]

/-- The type field after a setter sequence is the last type set, if any. -/
theorem applyOps_type (ops : List LightOp) (v : NGLLightValues) :
    (applyOps ops v).type = (lastTypeSet ops).getD v.type := by
  induction ops generalizing v with
  | nil => rfl
  | cons op t ih =>
    show (applyOps t (applyOp op v)).type = _
    rw [ih]
    cases hl : lastTypeSet t with
    | some k => simp [lastTypeSet, hl]
    | none =>
      cases op <;>
        simp [lastTypeSet, hl, applyOp, setType, setColor, setAttenuation]

/-- The color field after a setter sequence is the last color set, if any. -/
theorem applyOps_color (ops : List LightOp) (v : NGLLightValues) :
    (applyOps ops v).color = (lastColorSet ops).getD v.color := by
  induction ops generalizing v with
  | nil => rfl
  | cons op t ih =>
    show (applyOps t (applyOp op v)).color = _
    rw [ih]
    cases hl : lastColorSet t with
    | some c => simp [lastColorSet, hl]
    | none =>
      cases op <;>
        simp [lastColorSet, hl, applyOp, setType, setColor, setAttenuation]

/-- The attenuation field after a setter sequence is the last one set, if
any. -/
theorem applyOps_attenuation (ops : List LightOp) (v : NGLLightValues) :
    (applyOps ops v).attenuation = (lastAttenuationSet ops).getD v.attenuation := by
  induction ops generalizing v with
  | nil => rfl
  | cons op t ih =>
    show (applyOps t (applyOp op v)).attenuation = _
    rw [ih]
    cases hl : lastAttenuationSet t with
    | some a => simp [lastAttenuationSet, hl]
    | none =>
      cases op <;>
        simp [lastAttenuationSet, hl, applyOp, setType, setColor, setAttenuation]

/-- No setter touches the position field. -/
theorem applyOps_position (ops : List LightOp) (v : NGLLightValues) :
    (applyOps ops v).position = v.position := by
  induction ops generalizing v with
  | nil => rfl
  | cons op t ih =>
    show (applyOps t (applyOp op v)).position = _
    rw [ih]
    cases op <;> rfl

/-- Claim C1: the first call to defaultLight constructs the default light and
every subsequent call returns the same instance (same address, state
unchanged), and a color mutation through the handle of one call is visible
through the handle of the other call. -/
theorem defaultLight_singleton_identity (s : ProcState) (hwf : s.WF) (c : NGLvec4) :
    (defaultLight (defaultLight s).1).2 = (defaultLight s).2 ∧
    (defaultLight (defaultLight s).1).1 = (defaultLight s).1 ∧
    getColorRef (setColorRef (defaultLight s).1 (defaultLight (defaultLight s).1).2 c)
      (defaultLight s).2 = some c := by
  cases hd : s.defaultRef with
  | some r =>
    have hr : r < s.heap.length := by
      simpa [ProcState.WF, hd] using hwf
    refine ⟨?_, ?_, ?_⟩
    · simp [defaultLight, hd]
    · simp [defaultLight, hd]
    · simp only [defaultLight, hd]
      exact getColorRef_setColorRef s r hr c
  | none =>
    refine ⟨?_, ?_, ?_⟩
    · simp [defaultLight, hd]
    · simp [defaultLight, hd]
    · simp only [defaultLight, hd]
      exact getColorRef_setColorRef _ s.heap.length (by simp) c

/-- Claim C1 witness: the singleton identity property at the program start
state and a concrete color. -/
theorem defaultLight_singleton_identity_witness :
    (defaultLight (defaultLight initialState).1).2 = (defaultLight initialState).2 ∧
    (defaultLight (defaultLight initialState).1).1 = (defaultLight initialState).1 ∧
    getColorRef (setColorRef (defaultLight initialState).1
        (defaultLight (defaultLight initialState).1).2 ⟨0, 0, 1, 1⟩)
      (defaultLight initialState).2 = some ⟨0, 0, 1, 1⟩ :=
  defaultLight_singleton_identity initialState trivial ⟨0, 0, 1, 1⟩

/-- Claim C2: the light constructed by the first defaultLight call has kind
Sky, position (0, 1, -1, 1) with homogeneous w = 1, opaque white color and
attenuation 1.0. -/
theorem defaultLight_first_call_values (s : ProcState) (h : s.defaultRef = none) :
    lookupLight (defaultLight s).1 (defaultLight s).2 = some defaultLightValues ∧
    defaultLightValues.type = .NGLLightTypeSky ∧
    defaultLightValues.position = ⟨0, 1, -1, 1⟩ ∧
    defaultLightValues.color = ⟨1, 1, 1, 1⟩ ∧
    defaultLightValues.attenuation = 1 := by
  refine ⟨?_, rfl, rfl, rfl, rfl⟩
  simp only [defaultLight, h, lookupLight]
  exact getElem?_append_length s.heap defaultLightValues

/-- Claim C2 witness: the first-call values at the program start state. -/
theorem defaultLight_first_call_values_witness :
    lookupLight (defaultLight initialState).1 (defaultLight initialState).2 =
      some defaultLightValues ∧
    defaultLightValues.type = .NGLLightTypeSky ∧
    defaultLightValues.position = ⟨0, 1, -1, 1⟩ ∧
    defaultLightValues.color = ⟨1, 1, 1, 1⟩ ∧
    defaultLightValues.attenuation = 1 :=
  defaultLight_first_call_values initialState rfl

/-- Claim C3: a LightSource constructed directly by a caller has, right after
construction, color (1,1,1,1) and attenuation 1.0. -/
theorem newLight_default_color_attenuation (s : ProcState) :
    lookupLight (allocLight s).1 (allocLight s).2 = some initLightValues ∧
    initLightValues.color = ⟨1, 1, 1, 1⟩ ∧
    initLightValues.attenuation = 1 := by
  refine ⟨?_, rfl, rfl⟩
  simp only [allocLight, lookupLight]
  exact getElem?_append_length s.heap initLightValues

/-- Claim C4: setters store their argument verbatim and getters return it
unchanged, for every kind, every color vector and every attenuation scalar
(out-of-range values included, since a and c range over all scalars). -/
theorem setter_getter_roundtrip (v : NGLLightValues) (k : NGLLightType)
    (c : NGLvec4) (a : NGLfloat) :
    getType (setType k v) = k ∧
    getColor (setColor c v) = c ∧
    getAttenuation (setAttenuation a v) = a :=
  ⟨rfl, rfl, rfl⟩

/-- Claim C5: after any finite sequence of setter calls the record returned
by getValues holds exactly the most recently set kind, color and attenuation
(falling back to the prior field where a setter was never called), with no
staleness window, and the position field is untouched. -/
theorem getValues_reflects_latest (ops : List LightOp) (v : NGLLightValues) :
    (getValues (applyOps ops v)).type = (lastTypeSet ops).getD v.type ∧
    (getValues (applyOps ops v)).color = (lastColorSet ops).getD v.color ∧
    (getValues (applyOps ops v)).attenuation =
      (lastAttenuationSet ops).getD v.attenuation ∧
    (getValues (applyOps ops v)).position = v.position :=
  ⟨applyOps_type ops v, applyOps_color ops v, applyOps_attenuation ops v,
    applyOps_position ops v⟩

/-- Claim C6: each setter writes exactly its own field of the LightValues
record and leaves the other three fields unchanged, with no validation of the
argument. -/
theorem setters_frame_effect (v : NGLLightValues) (k : NGLLightType)
    (c : NGLvec4) (a : NGLfloat) :
    (setType k v).type = k ∧
    (setType k v).position = v.position ∧
    (setType k v).color = v.color ∧
    (setType k v).attenuation = v.attenuation ∧
    (setColor c v).color = c ∧
    (setColor c v).type = v.type ∧
    (setColor c v).position = v.position ∧
    (setColor c v).attenuation = v.attenuation ∧
    (setAttenuation a v).attenuation = a ∧
    (setAttenuation a v).type = v.type ∧
    (setAttenuation a v).position = v.position ∧
    (setAttenuation a v).color = v.color :=
  ⟨rfl, rfl, rfl, rfl, rfl, rfl, rfl, rfl, rfl, rfl, rfl, rfl⟩

/-- Claim C7: no operation can fail: every setter accepts any input
unconditionally and stores it as-is, getValues always yields the record, and
defaultLight always yields a live light. -/
theorem no_operation_fails (s : ProcState) (hwf : s.WF) (v : NGLLightValues)
    (k : NGLLightType) (c : NGLvec4) (a : NGLfloat) :
    getType (setType k v) = k ∧
    getColor (setColor c v) = c ∧
    getAttenuation (setAttenuation a v) = a ∧
    getValues v = v ∧
    (lookupLight (defaultLight s).1 (defaultLight s).2).isSome = true := by
  refine ⟨rfl, rfl, rfl, rfl, ?_⟩
  cases hd : s.defaultRef with
  | some r =>
    have hr : r < s.heap.length := by
      simpa [ProcState.WF, hd] using hwf
    simp [defaultLight, hd, lookupLight, List.getElem?_eq_getElem hr]
  | none =>
    simp [defaultLight, hd, lookupLight, getElem?_append_length]

/-- Claim C7 witness: the no-failure property at the program start state,
with an out-of-range attenuation -5 and an out-of-range color. -/
theorem no_operation_fails_witness :
    getType (setType .NGLLightTypeSky zeroLightValues) = .NGLLightTypeSky ∧
    getColor (setColor ⟨2, 2, 2, 2⟩ zeroLightValues) = ⟨2, 2, 2, 2⟩ ∧
    getAttenuation (setAttenuation (-5) zeroLightValues) = -5 ∧
    getValues zeroLightValues = zeroLightValues ∧
    (lookupLight (defaultLight initialState).1 (defaultLight initialState).2).isSome = true :=
  no_operation_fails initialState trivial zeroLightValues .NGLLightTypeSky ⟨2, 2, 2, 2⟩ (-5)

/-- Claim C8: two independently constructed lights live at distinct addresses
and a setter call on either one leaves the record of the other unchanged. -/
theorem independent_instances_no_sharing (s : ProcState) (op : LightOp) :
    (allocLight s).2 ≠ (allocLight (allocLight s).1).2 ∧
    lookupLight (applyOpRef (allocLight (allocLight s).1).1 (allocLight s).2 op)
        (allocLight (allocLight s).1).2
      = lookupLight (allocLight (allocLight s).1).1 (allocLight (allocLight s).1).2 ∧
    lookupLight (applyOpRef (allocLight (allocLight s).1).1
        (allocLight (allocLight s).1).2 op) (allocLight s).2
      = lookupLight (allocLight (allocLight s).1).1 (allocLight s).2 := by
  refine ⟨?_, ?_, ?_⟩
  · simp [allocLight]
  · simp only [allocLight, applyOpRef, updateLight, lookupLight, List.length_append,
      List.length_cons, List.length_nil]
    exact getElem?_updateAt_ne _ _ _ _ (by omega)
  · simp only [allocLight, applyOpRef, updateLight, lookupLight, List.length_append,
      List.length_cons, List.length_nil]
    exact getElem?_updateAt_ne _ _ _ _ (by omega)

/-- Claim C9: the pointer returned by the values accessor aliases the light's
internal record: a write through it is observable through every subsequent
getter and through the values accessor itself on the same instance. -/
theorem values_pointer_aliases (s : ProcState) (r : Nat)
    (h : r < s.heap.length) (nv : NGLLightValues) :
    getTypeRef (writeValuesRef s r nv) r = some nv.type ∧
    getColorRef (writeValuesRef s r nv) r = some nv.color ∧
    getAttenuationRef (writeValuesRef s r nv) r = some nv.attenuation ∧
    getValuesRef (writeValuesRef s r nv) r = some nv := by
  have hl : lookupLight (writeValuesRef s r nv) r = some nv := by
    simp [writeValuesRef, updateLight, lookupLight, getElem?_updateAt,
      List.getElem?_eq_getElem h]
  refine ⟨?_, ?_, ?_, ?_⟩ <;>
    simp [getTypeRef, getColorRef, getAttenuationRef, getValuesRef, hl,
      getType, getColor, getAttenuation, getValues]

/-- Claim C9 witness: aliasing at a one-light heap, overwriting the record
with the default-light values. -/
theorem values_pointer_aliases_witness :
    getTypeRef (writeValuesRef ⟨[zeroLightValues], none⟩ 0 defaultLightValues) 0 =
      some defaultLightValues.type ∧
    getColorRef (writeValuesRef ⟨[zeroLightValues], none⟩ 0 defaultLightValues) 0 =
      some defaultLightValues.color ∧
    getAttenuationRef (writeValuesRef ⟨[zeroLightValues], none⟩ 0 defaultLightValues) 0 =
      some defaultLightValues.attenuation ∧
    getValuesRef (writeValuesRef ⟨[zeroLightValues], none⟩ 0 defaultLightValues) 0 =
      some defaultLightValues :=
  values_pointer_aliases ⟨[zeroLightValues], none⟩ 0 (by decide) defaultLightValues

/-- Claim C10: the light type enumeration has exactly the three distinct
enumerators Point, Spot, Sky, in that order with underlying values 0, 1, 2,
so a zero-initialized LightValues record has kind Point. -/
theorem lightType_enum_values :
    NGLLightType.rawValue .NGLLightTypePoint = 0 ∧
    NGLLightType.rawValue .NGLLightTypeSpot = 1 ∧
    NGLLightType.rawValue .NGLLightTypeSky = 2 ∧
    (∀ t : NGLLightType, t = .NGLLightTypePoint ∨ t = .NGLLightTypeSpot ∨
      t = .NGLLightTypeSky) ∧
    NGLLightType.NGLLightTypePoint ≠ .NGLLightTypeSpot ∧
    NGLLightType.NGLLightTypePoint ≠ .NGLLightTypeSky ∧
    NGLLightType.NGLLightTypeSpot ≠ .NGLLightTypeSky ∧
    NGLLightType.ofRaw 0 = .NGLLightTypePoint ∧
    zeroLightValues.type = .NGLLightTypePoint := by
  refine ⟨rfl, rfl, rfl, ?_, by decide, by decide, by decide, rfl, rfl⟩
  intro t
  cases t
  · exact Or.inl rfl
  · exact Or.inr (Or.inl rfl)
  · exact Or.inr (Or.inr rfl)
